import Mathlib

/-!
Verification of the vim colon-command interceptor
(`crates/vim/src/command.rs`): the alias table, the fallback grammar
disambiguation for search / replace / go-to-line queries, and the
greedy subsequence highlight-position generator.

Machine integers are modelled as `Nat` with explicit range checks
(`u32` parsing checks the value against `2 ^ 32`).  Strings are the
logical Lean `String` (a list of characters); all inputs handled by
the byte-slicing operations in the source are single ASCII characters,
so character-level modelling is faithful.
-/

namespace ZedVim

/-- `workspace::SaveBehavior`: the conflict-resolution policy carried by the
save/close actions in the alias table. -/
inductive SaveBehavior where
  | promptOnConflict
  | silentlyOverwrite
  | promptOnWrite
  | dontSave
deriving DecidableEq

/-- `workspace::SplitDirection`: only the `Up` and `Left` directions are used
by the interceptor. -/
inductive SplitDirection where
  | up
  | left
deriving DecidableEq

/-- The closed set of host actions produced by `command_interceptor`, one
constructor per action type appearing in the source, with its
configuration payload. -/
inductive Action where
  | save (saveBehavior : SaveBehavior)
  | closeActiveItem (saveBehavior : SaveBehavior)
  | saveAll (saveBehavior : SaveBehavior)
  | closeAllItemsAndPanes (saveBehavior : SaveBehavior)
  | quit
  | splitUp
  | splitLeft
  | newFileInDirection (direction : SplitDirection)
  | newFile
  | activateNextItem
  | activatePrevItem
  | diagnosticsDeploy
  | hover
  | goToDiagnostic
  | goToPrevDiagnostic
  | joinLines
  | deleteLine
  | sortLinesCaseSensitive
  | sortLinesCaseInsensitive
  | endOfDocument
  | findCommand (query : String) (backwards : Bool)
  | replaceCommand (query : String)
  | goToLine (line : Nat)
deriving DecidableEq

/-- The result bundle returned by `command_interceptor`
(`command_palette::CommandInterceptResult`). -/
structure CommandInterceptResult where
  action : Action
  string : String
  positions : List Nat
deriving DecidableEq

/-- `query.starts_with(c)` for a single ASCII character pattern: tests the
first character of the string. -/
def startsWithChar (q : String) (c : Char) : Bool :=
  match q.data with
  | [] => false
  | c' :: _ => c' == c

/-- `&query[1..]` for a query whose first character is one ASCII byte:
drops the first character. -/
def strTail (q : String) : String :=
  String.mk q.data.tail

/-- The `while query.starts_with(":") { query = &query[1..] }` loop of
`command_interceptor`, on the character list. -/
def dropColons : List Char → List Char
  | [] => []
  | c :: rest => if c = ':' then dropColons rest else c :: rest

/-- Strip every leading colon from the query. -/
def stripColons (q : String) : String :=
  String.mk (dropColons q.data)

/-- The sign handling of Rust `str::parse::<u32>`: a single leading `+` is
dropped (a leading `-` is not accepted for an unsigned type and is left in
place, failing the digit check). -/
def stripPlus (l : List Char) : List Char :=
  match l with
  | [] => []
  | c :: rest => if c = '+' then rest else c :: rest

/-- Decimal value of a digit string. -/
def digitsVal (l : List Char) : Nat :=
  l.foldl (fun a c => a * 10 + (c.toNat - '0'.toNat)) 0

/-- Rust `query.parse::<u32>()`: optional single leading `+`, then one or
more ASCII digits, and the value must fit in 32 bits; everything else
(empty string, stray characters, overflow) fails with `none`. -/
def parse_u32 (q : String) : Option Nat :=
  let digits := stripPlus q.data
  if digits.isEmpty then none
  else if digits.all Char.isDigit then
    if digitsVal digits < 4294967296 then some (digitsVal digits) else none
  else none

/-- The alias table: one entry per arm of the literal-string `match` in
`command_interceptor`, in source order.  Each entry carries the list of
accepted literal query strings, the canonical name, and the action. -/
def aliasTable : List (List String × String × Action) :=
  [ (["w", "wr", "wri", "writ", "write"], "write", .save .promptOnConflict),
    (["w!", "wr!", "wri!", "writ!", "write!"], "write!", .save .silentlyOverwrite),
    (["q", "qu", "qui", "quit"], "quit", .closeActiveItem .promptOnWrite),
    (["q!", "qu!", "qui!", "quit!"], "quit!", .closeActiveItem .dontSave),
    (["wq"], "wq", .closeActiveItem .promptOnConflict),
    (["wq!"], "wq!", .closeActiveItem .silentlyOverwrite),
    (["x", "xi", "xit", "exi", "exit"], "exit", .closeActiveItem .promptOnConflict),
    (["x!", "xi!", "xit!", "exi!", "exit!"], "exit!", .closeActiveItem .silentlyOverwrite),
    (["wa", "wal", "wall"], "wall", .saveAll .promptOnConflict),
    (["wa!", "wal!", "wall!"], "wall!", .saveAll .silentlyOverwrite),
    (["qa", "qal", "qall", "quita", "quital", "quitall"], "quitall",
      .closeAllItemsAndPanes .promptOnWrite),
    (["qa!", "qal!", "qall!", "quita!", "quital!", "quitall!"], "quitall!",
      .closeAllItemsAndPanes .dontSave),
    (["xa", "xal", "xall"], "xall", .closeAllItemsAndPanes .promptOnConflict),
    (["xa!", "xal!", "xall!"], "xall!", .closeAllItemsAndPanes .silentlyOverwrite),
    (["wqa", "wqal", "wqall"], "wqall", .closeAllItemsAndPanes .promptOnConflict),
    (["wqa!", "wqal!", "wqall!"], "wqall!", .closeAllItemsAndPanes .silentlyOverwrite),
    (["cq", "cqu", "cqui", "cquit", "cq!", "cqu!", "cqui!", "cquit!"], "cquit!", .quit),
    (["sp", "spl", "spli", "split"], "split", .splitUp),
    (["vs", "vsp", "vspl", "vspli", "vsplit"], "vsplit", .splitLeft),
    (["new"], "new", .newFileInDirection .up),
    (["vne", "vnew"], "vnew", .newFileInDirection .left),
    (["tabe", "tabed", "tabedi", "tabedit"], "tabedit", .newFile),
    (["tabnew"], "tabnew", .newFile),
    (["tabn", "tabne", "tabnex", "tabnext"], "tabnext", .activateNextItem),
    (["tabp", "tabpr", "tabpre", "tabprev", "tabprevi", "tabprevio", "tabpreviou",
      "tabprevious"], "tabprevious", .activatePrevItem),
    (["tabN", "tabNe", "tabNex", "tabNext"], "tabNext", .activatePrevItem),
    (["tabc", "tabcl", "tabclo", "tabclos", "tabclose"], "tabclose",
      .closeActiveItem .promptOnWrite),
    (["cl", "cli", "clis", "clist"], "clist", .diagnosticsDeploy),
    (["cc"], "cc", .hover),
    (["ll"], "ll", .hover),
    (["cn", "cne", "cnex", "cnext"], "cnext", .goToDiagnostic),
    (["lne", "lnex", "lnext"], "cnext", .goToDiagnostic),
    (["cpr", "cpre", "cprev", "cprevi", "cprevio", "cpreviou", "cprevious"], "cprevious",
      .goToPrevDiagnostic),
    (["cN", "cNe", "cNex", "cNext"], "cNext", .goToPrevDiagnostic),
    (["lp", "lpr", "lpre", "lprev", "lprevi", "lprevio", "lpreviou", "lprevious"],
      "lprevious", .goToPrevDiagnostic),
    (["lN", "lNe", "lNex", "lNext"], "lNext", .goToPrevDiagnostic),
    (["j", "jo", "joi", "join"], "join", .joinLines),
    (["d", "de", "del", "dele", "delet", "delete", "dl", "dell", "delel", "deletl",
      "deletel", "dp", "dep", "delp", "delep", "deletp", "deletep"], "delete", .deleteLine),
    (["sor", "sor ", "sort", "sort "], "sort", .sortLinesCaseSensitive),
    (["sor i", "sort i"], "sort i", .sortLinesCaseInsensitive),
    (["$"], "$", .endOfDocument) ]

/-- Every literal alias string accepted by the table. -/
def allAliases : List String :=
  aliasTable.flatMap (fun e => e.1)

/-- Exact-match lookup in the alias table: the first entry whose literal
list contains the query, in source order (the literal arms of the `match`
in `command_interceptor`). -/
def aliasLookup (q : String) : Option (String × Action) :=
  (aliasTable.find? (fun e => e.1.contains q)).map (fun e => e.2)

/-- The fallback `_` arm of the `match` in `command_interceptor`: queries
beginning with `/` or `?` become search commands, `%` a replace command,
and anything parsing as a `u32` a go-to-line command. -/
def disambiguate (query : String) : Option (String × Action) :=
  if startsWithChar query '/' || startsWithChar query '?' then
    some (query, Action.findCommand (strTail query) (startsWithChar query '?'))
  else if startsWithChar query '%' then
    some (query, Action.replaceCommand query)
  else
    match parse_u32 query with
    | some line => some (query, Action.goToLine line)
    | none => none

/-- The whole `match query` of `command_interceptor`: the literal alias
arms first, then the fallback `_` arm. -/
def resolve (query : String) : Option (String × Action) :=
  match aliasLookup query with
  | some r => some r
  | none => disambiguate query

/-- `generate_positions`' main loop: walk the canonical string with index
`i`, matching the current query character `current` (remaining query
characters `rest`), recording indices of matches; stop when the query is
exhausted. -/
def generate_positions_aux : List Char → Nat → Char → List Char → List Nat
  | [], _, _, _ => []
  | c :: cs, i, current, rest =>
    if c = current then
      match rest with
      | [] => [i]
      | q :: qs => i :: generate_positions_aux cs (i + 1) q qs
    else
      generate_positions_aux cs (i + 1) current rest

/-- `generate_positions(string, query)`: greedy first-occurrence
subsequence match of the query's characters against the canonical string,
returning the matched indices; empty query gives the empty list. -/
def generate_positions (string query : String) : List Nat :=
  match query.data with
  | [] => []
  | q :: qs => generate_positions_aux string.data 0 q qs

/-- `command_interceptor(query)`: strip leading colons, resolve through the
alias table and the fallback grammar, and bundle the action with the
colon-prefixed canonical string and its highlight positions. -/
def command_interceptor (query : String) : Option CommandInterceptResult :=
  let query := stripColons query
  match resolve query with
  | none => none
  | some (name, action) =>
    let string := ":" ++ name
    some { action := action, string := string,
           positions := generate_positions string query }

example : command_interceptor ":w" =
    some { action := .save .promptOnConflict, string := ":write", positions := [1] } := by
  decide

example : command_interceptor ":3" =
    some { action := .goToLine 3, string := ":3", positions := [1] } := by
  decide

example : command_interceptor "::q!" =
    some { action := .closeActiveItem .dontSave, string := ":quit!",
           positions := [1, 5] } := by
  decide

example : command_interceptor "%s/b/d" =
    some { action := .replaceCommand "%s/b/d", string := ":%s/b/d",
           positions := [1, 2, 3, 4, 5, 6] } := by
  decide

example : command_interceptor "nonsense" = none := by decide

/-- Transcription of the spec's description of the highlight position
generator (§4.3), for comparison with `generate_positions`: walk the
canonical string once keeping a cursor into the query; whenever the
canonical character equals the cursor character, record the canonical
index and advance the cursor; stop when the query is exhausted; if either
string runs out, return the positions found so far. -/
def positionsSpecAux : List Char → List Char → Nat → List Nat
  | _, [], _ => []
  | [], _ :: _, _ => []
  | c :: cs, q :: qs, i =>
    if c = q then i :: positionsSpecAux cs qs (i + 1)
    else positionsSpecAux cs (q :: qs) (i + 1)

/-- The spec-side highlight position function (§4.3). -/
def positionsSpec (canonical query : String) : List Nat :=
  positionsSpecAux canonical.data query.data 0

theorem positionsSpecAux_nil (l : List Char) (i : Nat) :
    positionsSpecAux l [] i = [] := by
  cases l <;> rfl

theorem generate_positions_aux_eq_spec (s : List Char) :
    ∀ (i : Nat) (cur : Char) (qs : List Char),
      generate_positions_aux s i cur qs = positionsSpecAux s (cur :: qs) i := by
  induction s with
  | nil => intro i cur qs; rfl
  | cons c cs ih =>
    intro i cur qs
    by_cases h : c = cur
    · subst h
      cases qs with
      | nil => simp [generate_positions_aux, positionsSpecAux]
      | cons q qs' => simp [generate_positions_aux, positionsSpecAux, ih]
    · simp [generate_positions_aux, positionsSpecAux, h, ih]

theorem generate_positions_aux_ge (s : List Char) :
    ∀ (i : Nat) (cur : Char) (qs : List Char) (x : Nat),
      x ∈ generate_positions_aux s i cur qs → i ≤ x := by
  induction s with
  | nil => intro i cur qs x hx; simp [generate_positions_aux] at hx
  | cons c cs ih =>
    intro i cur qs x hx
    by_cases h : c = cur
    · cases qs with
      | nil =>
        simp [generate_positions_aux, h] at hx
        omega
      | cons q qs' =>
        simp [generate_positions_aux, h] at hx
        rcases hx with rfl | hx
        · exact Nat.le_refl x
        · exact Nat.le_of_succ_le (ih (i + 1) q qs' x hx)
    · simp [generate_positions_aux, h] at hx
      exact Nat.le_of_succ_le (ih (i + 1) cur qs x hx)

theorem generate_positions_aux_sorted (s : List Char) :
    ∀ (i : Nat) (cur : Char) (qs : List Char),
      List.Sorted (· ≤ ·) (generate_positions_aux s i cur qs) := by
  induction s with
  | nil => intro i cur qs; simp [generate_positions_aux]
  | cons c cs ih =>
    intro i cur qs
    by_cases h : c = cur
    · cases qs with
      | nil => simp [generate_positions_aux, h]
      | cons q qs' =>
        have hrw : generate_positions_aux (c :: cs) i cur (q :: qs')
            = i :: generate_positions_aux cs (i + 1) q qs' := by
          simp [generate_positions_aux, h]
        rw [hrw, List.sorted_cons]
        refine ⟨fun x hx => ?_, ih (i + 1) q qs'⟩
        exact Nat.le_of_succ_le (generate_positions_aux_ge cs (i + 1) q qs' x hx)
    · have hrw : generate_positions_aux (c :: cs) i cur qs
          = generate_positions_aux cs (i + 1) cur qs := by
        simp [generate_positions_aux, h]
      rw [hrw]
      exact ih (i + 1) cur qs

theorem generate_positions_aux_length (s : List Char) :
    ∀ (i : Nat) (cur : Char) (qs : List Char),
      (generate_positions_aux s i cur qs).length ≤ qs.length + 1 := by
  induction s with
  | nil => intro i cur qs; simp [generate_positions_aux]
  | cons c cs ih =>
    intro i cur qs
    by_cases h : c = cur
    · cases qs with
      | nil => simp [generate_positions_aux, h]
      | cons q qs' =>
        have hrw : generate_positions_aux (c :: cs) i cur (q :: qs')
            = i :: generate_positions_aux cs (i + 1) q qs' := by
          simp [generate_positions_aux, h]
        rw [hrw]
        have := ih (i + 1) q qs'
        simp only [List.length_cons]
        omega
    · have hrw : generate_positions_aux (c :: cs) i cur qs
          = generate_positions_aux cs (i + 1) cur qs := by
        simp [generate_positions_aux, h]
      rw [hrw]
      exact ih (i + 1) cur qs

theorem generate_positions_sorted (c q : String) :
    List.Sorted (· ≤ ·) (generate_positions c q) := by
  unfold generate_positions
  cases hq : q.data with
  | nil => simp
  | cons qh qt => exact generate_positions_aux_sorted c.data 0 qh qt

theorem generate_positions_length (c q : String) :
    (generate_positions c q).length ≤ q.length := by
  have hlen : q.length = q.data.length := rfl
  unfold generate_positions
  cases hq : q.data with
  | nil => simp
  | cons qh qt =>
    rw [hlen, hq]
    exact generate_positions_aux_length c.data 0 qh qt

/-- Claim C1: the highlight position generator is the greedy
first-occurrence left-to-right subsequence match described by the spec —
it walks the canonical string once, records the index of each canonical
character equal to the query cursor's character, advances the cursor,
stops when the query is exhausted, returns the empty sequence for an empty
query, and degrades to the positions found so far when a query character
never occurs; in particular `positions(":write", "w") = [1]`,
`positions(":write", "wr") = [1, 2]`, and
`positions(":write", "xyz") = []`. -/
theorem C1_generate_positions_greedy :
    (∀ c q : String, generate_positions c q = positionsSpec c q) ∧
    generate_positions ":write" "w" = [1] ∧
    generate_positions ":write" "wr" = [1, 2] ∧
    generate_positions ":write" "xyz" = [] := by
  refine ⟨fun c q => ?_, by decide, by decide, by decide⟩
  unfold generate_positions positionsSpec
  cases hq : q.data with
  | nil => rw [positionsSpecAux_nil]
  | cons qh qt => exact generate_positions_aux_eq_spec c.data 0 qh qt

/-- Claim C7: for every alias string `s` in the table whose descriptor's
canonical display string is `c` (the colon-prefixed canonical name), the
highlight sequence `positions(c, s)` is non-decreasing and has length at
most the length of `s`. -/
theorem C7_roundtrip :
    ∀ e ∈ aliasTable, ∀ s ∈ e.1,
      List.Sorted (· ≤ ·) (generate_positions (":" ++ e.2.1) s) ∧
      (generate_positions (":" ++ e.2.1) s).length ≤ s.length := by
  intro e _ s _
  exact ⟨generate_positions_sorted _ _, generate_positions_length _ _⟩

/-- Witness for C7 at the first table entry and its alias `"w"`. -/
theorem C7_roundtrip_witness :
    List.Sorted (· ≤ ·) (generate_positions (":" ++ "write") "w") ∧
    (generate_positions (":" ++ "write") "w").length ≤ "w".length :=
  C7_roundtrip (["w", "wr", "wri", "writ", "write"], "write",
    Action.save SaveBehavior.promptOnConflict) (by decide) "w" (by decide)

/-- Claim C8: the interceptor's result is invariant under a leading
command-prefix colon: `command_interceptor (":" ++ s)` equals
`command_interceptor s` for every string `s`. -/
theorem C8_colon_invariant :
    ∀ s : String, command_interceptor (":" ++ s) = command_interceptor s := by
  intro s
  have hdata : (":" ++ s).data = ':' :: s.data := rfl
  have h : stripColons (":" ++ s) = stripColons s := by
    unfold stripColons
    rw [hdata]
    simp [dropColons]
  unfold command_interceptor
  rw [h]

/-- Claim C3: every result produced by the grammar disambiguator carries
the query string itself as its canonical display name, not a fixed
keyword. -/
theorem C3_disambiguator_canonical :
    ∀ (q : String) (r : String × Action), disambiguate q = some r → r.1 = q := by
  intro q r h
  unfold disambiguate at h
  split at h
  · injection h with h; subst h; rfl
  · split at h
    · injection h with h; subst h; rfl
    · split at h
      · injection h with h; subst h; rfl
      · exact Option.noConfusion h

/-- Witness for C3 at the forward-search query `"/foo"`. -/
theorem C3_disambiguator_canonical_witness :
    ("/foo", Action.findCommand "foo" false).1 = "/foo" :=
  C3_disambiguator_canonical "/foo" ("/foo", Action.findCommand "foo" false) (by decide)

theorem startsWithChar_false_of_head (q : String) (c : Char) (r : List Char)
    (hq : q.data = c :: r) (d : Char) (hcd : (c == d) = false) :
    startsWithChar q d = false := by
  unfold startsWithChar
  rw [hq]
  exact hcd

/-- Claim C4: on an alias-table miss, a query beginning with `/` resolves
to a forward search over the query with the leading `/` removed, and a
query beginning with `?` to a backward search over the query with the
leading `?` removed; in particular `"/foo"` yields a forward search over
`"foo"` and `"?foo"` a backward search over `"foo"`. -/
theorem C4_search_commands :
    (∀ q : String, aliasLookup q = none → startsWithChar q '/' = true →
      resolve q = some (q, Action.findCommand (strTail q) false)) ∧
    (∀ q : String, aliasLookup q = none → startsWithChar q '?' = true →
      resolve q = some (q, Action.findCommand (strTail q) true)) ∧
    disambiguate "/foo" = some ("/foo", Action.findCommand "foo" false) ∧
    disambiguate "?foo" = some ("?foo", Action.findCommand "foo" true) := by
  refine ⟨?_, ?_, by decide, by decide⟩
  · intro q halias hslash
    have hqm : startsWithChar q '?' = false := by
      cases hqd : q.data with
      | nil => unfold startsWithChar at hslash; rw [hqd] at hslash; cases hslash
      | cons c r =>
        unfold startsWithChar at hslash
        rw [hqd] at hslash
        have hc : c = '/' := eq_of_beq hslash
        subst hc
        exact startsWithChar_false_of_head q '/' r hqd '?' (by decide)
    unfold resolve
    rw [halias]
    unfold disambiguate
    rw [hslash, hqm]
    simp
  · intro q halias hqm
    have hslash : startsWithChar q '/' = false := by
      cases hqd : q.data with
      | nil => unfold startsWithChar at hqm; rw [hqd] at hqm; cases hqm
      | cons c r =>
        unfold startsWithChar at hqm
        rw [hqd] at hqm
        have hc : c = '?' := eq_of_beq hqm
        subst hc
        exact startsWithChar_false_of_head q '?' r hqd '/' (by decide)
    unfold resolve
    rw [halias]
    unfold disambiguate
    rw [hslash, hqm]
    simp

/-- Witness for C4 at the query `"/bar"`. -/
theorem C4_search_commands_witness :
    resolve "/bar" = some ("/bar", Action.findCommand (strTail "/bar") false) ∧
    strTail "/bar" = "bar" :=
  ⟨C4_search_commands.1 "/bar" (by decide) (by decide), by decide⟩

/-- Claim C5: on an alias-table miss with none of the `/`, `?`, `%`
prefixes, a query parsing entirely as an unsigned 32-bit integer resolves
to a go-to-line command targeting that number as typed; in particular
`"42"` yields go-to-line 42 and `"abc"` yields no match. -/
theorem C5_goto_line :
    (∀ (q : String) (n : Nat), aliasLookup q = none →
      startsWithChar q '/' = false → startsWithChar q '?' = false →
      startsWithChar q '%' = false → parse_u32 q = some n →
      resolve q = some (q, Action.goToLine n)) ∧
    disambiguate "42" = some ("42", Action.goToLine 42) ∧
    disambiguate "abc" = none ∧
    command_interceptor "abc" = none := by
  refine ⟨?_, by decide, by decide, by decide⟩
  intro q n halias h1 h2 h3 hp
  unfold resolve
  rw [halias]
  unfold disambiguate
  rw [h1, h2, h3, hp]
  simp

/-- Witness for C5 at the query `"7"`. -/
theorem C5_goto_line_witness :
    resolve "7" = some ("7", Action.goToLine 7) :=
  C5_goto_line.1 "7" 7 (by decide) (by decide) (by decide) (by decide) (by decide)

theorem resolve_eq_none (q : String) :
    resolve q = none ↔ aliasLookup q = none ∧ disambiguate q = none := by
  unfold resolve
  cases h : aliasLookup q <;> simp [h]

theorem disambiguate_eq_none (q : String) :
    disambiguate q = none ↔
      startsWithChar q '/' = false ∧ startsWithChar q '?' = false ∧
      startsWithChar q '%' = false ∧ parse_u32 q = none := by
  unfold disambiguate
  cases h1 : startsWithChar q '/' <;> cases h2 : startsWithChar q '?' <;>
    cases h3 : startsWithChar q '%' <;> cases hp : parse_u32 q <;>
      simp [h1, h2, h3, hp]

theorem command_interceptor_eq_none (q : String) :
    command_interceptor q = none ↔ resolve (stripColons q) = none := by
  unfold command_interceptor
  cases h : resolve (stripColons q) with
  | none => simp [h]
  | some r => obtain ⟨name, action⟩ := r; simp [h]

/-- Claim C6: the interceptor is total — it returns `none` (no command
recognized) rather than raising an error, and it does so exactly when the
colon-stripped query is not an alias-table literal, does not begin with
`/`, `?`, or `%`, and fails the `u32` parse (malformed numeric strings
fall through to no-match). -/
theorem C6_none_exactly_on_no_match :
    ∀ q : String, command_interceptor q = none ↔
      (aliasLookup (stripColons q) = none ∧
       startsWithChar (stripColons q) '/' = false ∧
       startsWithChar (stripColons q) '?' = false ∧
       startsWithChar (stripColons q) '%' = false ∧
       parse_u32 (stripColons q) = none) := by
  intro q
  rw [command_interceptor_eq_none, resolve_eq_none, disambiguate_eq_none]

/-- Does the string end in a `!`? -/
def endsWithBang (s : String) : Bool :=
  s.data.getLast? == some '!'

/-- Drop the trailing character (turn a bang alias into its non-bang
counterpart). -/
def dropBang (s : String) : String :=
  String.mk s.data.dropLast

/-- The command family of an action: the action with its configuration
payload forgotten. -/
inductive Family where
  | save
  | closeActiveItem
  | saveAll
  | closeAllItemsAndPanes
  | quitProcess
  | splitUp
  | splitLeft
  | newFileInDirection
  | newFile
  | activateNextItem
  | activatePrevItem
  | diagnosticsDeploy
  | hover
  | goToDiagnostic
  | goToPrevDiagnostic
  | joinLines
  | deleteLine
  | sortLinesCaseSensitive
  | sortLinesCaseInsensitive
  | endOfDocument
  | findCommand
  | replaceCommand
  | goToLine
deriving DecidableEq

def family : Action → Family
  | .save _ => .save
  | .closeActiveItem _ => .closeActiveItem
  | .saveAll _ => .saveAll
  | .closeAllItemsAndPanes _ => .closeAllItemsAndPanes
  | .quit => .quitProcess
  | .splitUp => .splitUp
  | .splitLeft => .splitLeft
  | .newFileInDirection _ => .newFileInDirection
  | .newFile => .newFile
  | .activateNextItem => .activateNextItem
  | .activatePrevItem => .activatePrevItem
  | .diagnosticsDeploy => .diagnosticsDeploy
  | .hover => .hover
  | .goToDiagnostic => .goToDiagnostic
  | .goToPrevDiagnostic => .goToPrevDiagnostic
  | .joinLines => .joinLines
  | .deleteLine => .deleteLine
  | .sortLinesCaseSensitive => .sortLinesCaseSensitive
  | .sortLinesCaseInsensitive => .sortLinesCaseInsensitive
  | .endOfDocument => .endOfDocument
  | .findCommand _ _ => .findCommand
  | .replaceCommand _ => .replaceCommand
  | .goToLine _ => .goToLine

/-- The conflict-resolution policy carried by an action, when it has one. -/
def savePolicy : Action → Option SaveBehavior
  | .save b => some b
  | .closeActiveItem b => some b
  | .saveAll b => some b
  | .closeAllItemsAndPanes b => some b
  | _ => none

/-- Destructiveness rank of a policy: prompting before writing is least
forceful, then prompting only on conflict, then overwriting silently, then
discarding changes outright.  The bang pairs in the table step from
`promptOnConflict` to `silentlyOverwrite` and from `promptOnWrite` to
`dontSave`, both strict increases in this rank. -/
def forceRank : SaveBehavior → Nat
  | .promptOnWrite => 0
  | .promptOnConflict => 1
  | .silentlyOverwrite => 2
  | .dontSave => 3

/-- `strictlyMoreForceful base force` holds when both actions carry a
policy payload and `force`'s policy is strictly more destructive than
`base`'s. -/
def strictlyMoreForceful (base force : Action) : Bool :=
  match savePolicy base, savePolicy force with
  | some pb, some pf => decide (forceRank pb < forceRank pf)
  | _, _ => false

/-- Claim C2 as stated: every bang-suffixed alias resolves to the same
command family as its non-bang counterpart, with a canonical display
string ending in `!` and a strictly more destructive policy payload. -/
def bangAliasesStrictlyForceful : Prop :=
  ∀ s ∈ allAliases, endsWithBang s = true →
    ∃ (c : String) (a : Action) (c' : String) (a' : Action),
      aliasLookup s = some (c, a) ∧ aliasLookup (dropBang s) = some (c', a') ∧
      endsWithBang c = true ∧ family a = family a' ∧
      strictlyMoreForceful a' a = true

/-- Counterexample to C2 as stated: the alias `"cq!"` and its non-bang
counterpart `"cq"` both resolve to the very same descriptor
`("cquit!", quit)`; the quit-process action carries no policy payload, so
the bang form's payload is not strictly more destructive than the
non-bang form's. -/
theorem C2_counterexample : ¬ bangAliasesStrictlyForceful := by
  intro h
  obtain ⟨c, a, c', a', h1, h2, h3, h4, h5⟩ := h "cq!" (by decide) (by decide)
  have e1 : aliasLookup "cq!" = some ("cquit!", Action.quit) := by decide
  have e3 : dropBang "cq!" = "cq" := by decide
  have e2 : aliasLookup "cq" = some ("cquit!", Action.quit) := by decide
  rw [e1] at h1
  rw [e3, e2] at h2
  injection h1 with h1
  injection h2 with h2
  rw [Prod.mk.injEq] at h1 h2
  rw [← h1.2, ← h2.2] at h5
  exact absurd h5 (by decide)

/-- One bang alias is in order: both it and its non-bang counterpart are
in the table, the canonical string ends in `!`, the families agree, and
either the bang payload is strictly more destructive or (the cquit
family) neither action carries a policy and the descriptors coincide. -/
def bangOk (s : String) : Bool :=
  match aliasLookup s, aliasLookup (dropBang s) with
  | some (c, a), some (_, a') =>
    endsWithBang c && decide (family a = family a') &&
      (strictlyMoreForceful a' a || (decide (a = a') && (savePolicy a).isNone))
  | _, _ => false

set_option maxRecDepth 100000 in
/-- Claim C2 amended: every bang-suffixed alias resolves to the same
command family as its non-bang counterpart and its canonical display
string ends in `!`; its policy payload is strictly more destructive than
the non-bang form's, except in the force-quit-process (`cquit`) family,
whose actions carry no policy payload and where bang and non-bang aliases
resolve to the identical descriptor. -/
theorem C2_bang_amended :
    ∀ s ∈ allAliases, endsWithBang s = true → bangOk s = true := by
  decide

/-- Witness for C2 (amended) at the bang alias `"w!"`. -/
theorem C2_bang_amended_witness : bangOk "w!" = true :=
  C2_bang_amended "w!" (by decide) (by decide)

set_option maxRecDepth 100000 in
/-- Claim C9: disjointness of the two stages — no literal alias string in
the table begins with `/`, `?`, or `%`, none parses as an unsigned 32-bit
integer, and consequently the grammar disambiguator returns nothing on any
alias string, so its results can never collide with table entries. -/
theorem C9_disjointness :
    (allAliases.all (fun s => !startsWithChar s '/' && !startsWithChar s '?' &&
      !startsWithChar s '%' && (parse_u32 s).isNone)) = true ∧
    (allAliases.all (fun s => (disambiguate s).isNone)) = true := by
  constructor <;> decide

/-- The query shape of claim C10: only decimal digits, or a single leading
`+` followed by at least one digit. -/
def numQueryB (q : String) : Bool :=
  !(stripPlus q.data).isEmpty && (stripPlus q.data).all Char.isDigit

/-- The decimal value denoted by such a query. -/
def numVal (q : String) : Nat :=
  digitsVal (stripPlus q.data)

set_option maxRecDepth 100000 in
theorem no_alias_is_numQuery : ∀ s ∈ allAliases, numQueryB s = false := by
  decide

theorem isDigit_beq_false {c d : Char} (hc : Char.isDigit c = true)
    (hd : Char.isDigit d = false) : (c == d) = false := by
  cases hbeq : c == d with
  | false => rfl
  | true =>
    have := eq_of_beq hbeq
    subst this
    rw [hc] at hd
    cases hd

theorem aliasLookup_eq_none_of_numQuery (q : String) (h : numQueryB q = true) :
    aliasLookup q = none := by
  unfold aliasLookup
  rw [Option.map_eq_none', List.find?_eq_none]
  intro e he hc
  have hq : q ∈ e.1 := List.mem_of_elem_eq_true hc
  have hmem : q ∈ allAliases := List.mem_flatMap.mpr ⟨e, he, hq⟩
  have hfalse := no_alias_is_numQuery q hmem
  rw [h] at hfalse
  cases hfalse

/-- Claim C10: for every query consisting only of decimal digits (or an
optional single leading `+` followed by digits), the interceptor resolves
it to a go-to-line command targeting its numeric value exactly when that
value fits in a 32-bit unsigned integer (is at most 4294967295); digit
strings denoting larger values return no match. -/
theorem C10_goto_line_u32_bound :
    ∀ q : String, numQueryB q = true →
      (numVal q < 4294967296 →
        (command_interceptor q).map (fun r => r.action)
          = some (Action.goToLine (numVal q))) ∧
      (4294967296 ≤ numVal q → command_interceptor q = none) := by
  intro q hq
  have hand := hq
  rw [numQueryB, Bool.and_eq_true, Bool.not_eq_true'] at hand
  obtain ⟨hne, hdig⟩ := hand
  cases hqd : q.data with
  | nil =>
    rw [hqd] at hne
    simp [stripPlus] at hne
  | cons c r =>
    have hhead : c = '+' ∨ Char.isDigit c = true := by
      by_cases hp : c = '+'
      · exact Or.inl hp
      · right
        rw [hqd] at hdig
        rw [show stripPlus (c :: r) = c :: r from by simp [stripPlus, hp]] at hdig
        rw [List.all_cons, Bool.and_eq_true] at hdig
        exact hdig.1
    have hbeq : ∀ d : Char, Char.isDigit d = false → ('+' == d) = false →
        (c == d) = false := by
      intro d hd hpd
      rcases hhead with hc | hc
      · rw [hc]; exact hpd
      · exact isDigit_beq_false hc hd
    have hs1 : startsWithChar q '/' = false :=
      startsWithChar_false_of_head q c r hqd '/' (hbeq '/' (by decide) (by decide))
    have hs2 : startsWithChar q '?' = false :=
      startsWithChar_false_of_head q c r hqd '?' (hbeq '?' (by decide) (by decide))
    have hs3 : startsWithChar q '%' = false :=
      startsWithChar_false_of_head q c r hqd '%' (hbeq '%' (by decide) (by decide))
    have hcolon : c ≠ ':' := by
      intro hc'
      have hb := hbeq ':' (by decide) (by decide)
      rw [hc'] at hb
      simp at hb
    have heta : String.mk q.data = q := rfl
    have hstrip : stripColons q = q := by
      unfold stripColons
      rw [hqd]
      simp only [dropColons, if_neg hcolon]
      rw [← heta, hqd]
    have halias : aliasLookup q = none := aliasLookup_eq_none_of_numQuery q hq
    have hparse : parse_u32 q =
        if numVal q < 4294967296 then some (numVal q) else none := by
      simp only [parse_u32, numVal, hne, hdig, Bool.false_eq_true, if_false,
        if_true]
    have hres : resolve q =
        if numVal q < 4294967296 then some (q, Action.goToLine (numVal q))
        else none := by
      unfold resolve
      rw [halias]
      unfold disambiguate
      rw [hs1, hs2, hs3, hparse]
      by_cases hv : numVal q < 4294967296
      · rw [if_pos hv, if_pos hv]
        simp
      · rw [if_neg hv, if_neg hv]
        simp
    constructor
    · intro hv
      unfold command_interceptor
      rw [hstrip]
      simp only [hres, if_pos hv]
      rfl
    · intro hv
      unfold command_interceptor
      rw [hstrip]
      simp only [hres, if_neg (show ¬ numVal q < 4294967296 by omega)]

/-- Witness for C10 at the in-range query `"+7"` and the out-of-range
query `"4294967296"`. -/
theorem C10_goto_line_u32_bound_witness :
    (command_interceptor "+7").map (fun r => r.action)
        = some (Action.goToLine (numVal "+7")) ∧
    command_interceptor "4294967296" = none :=
  ⟨(C10_goto_line_u32_bound "+7" (by decide)).1 (by decide),
   (C10_goto_line_u32_bound "4294967296" (by decide)).2 (by decide)⟩

end ZedVim
